import Mathlib

/-!
# Verification of Plume's federation delivery core (`plume-common/src/activity_pub/mod.rs`)

A shallow embedding of the ActivityPub module of Plume: the JSON-LD context
envelope, the Accept-header content negotiator (`ApRequest::from_request`),
the destination resolution and dispatch pipeline of `broadcast` /
`broadcast07`, the typed vocabulary extensions (`ApSignature07`,
`ActorSource`, `Source`, `Licensed07`, `Hashtag07`) over unparsed property
bags, and the `Id` newtype.

JSON values are modelled as an inductive type; `serde_json::Map` objects are
modelled as association lists looked up by key.  External-crate behaviour
(serde, the `activitystreams` unparsed-extension helpers, URL parsing and the
per-destination signature) that the repository only calls is modelled from
the specification; each such definition is marked `Modelled from the spec:`.
-/

namespace Plume

/-- JSON values (`serde_json::Value`). Numbers are irrelevant to every claim
and are modelled as integers. -/
inductive Json where
  | null
  | bool (b : Bool)
  | num (n : Int)
  | str (s : String)
  | arr (elems : List Json)
  | obj (fields : List (String × Json))

/-- A JSON object's field list (`serde_json::Map<String, Value>` /
`activitystreams::unparsed::Unparsed`), keyed by property name. -/
def Bag := List (String × Json)

/-- Key lookup in a JSON object (`Map::get`). -/
def bagLookup (k : String) (b : Bag) : Option Json :=
  (List.find? (fun p => p.1 == k) b).map Prod.snd

/-- Key removal in a JSON object (`Map::remove`). -/
def bagErase (k : String) (b : Bag) : Bag :=
  List.filter (fun p => p.1 != k) b

/-- Key insertion/replacement in a JSON object (`Map::insert`,
also the `json[key] = value` index assignment). -/
def mapInsert (k : String) (v : Json) (b : Bag) : Bag :=
  (k, v) :: bagErase k b

/-- Whether a JSON value is `Value::Null`. -/
def Json.isNull : Json → Bool
  | .null => true
  | _ => false

/-- Modelled from the spec: the `activitystreams` unparsed-extension insert
used by `try_into_unparsed` (§4.1 "compose").  Reinserting an absent optional
field must leave the bag unchanged for the round-trip property of §8.1 to
hold, so inserting a `null` (the serialization of `None`) is a no-op. -/
def unparsedInsert (k : String) (v : Json) (b : Bag) : Bag :=
  if v.isNull then b else mapInsert k v b

/-- Modelled from the spec: the `activitystreams` unparsed-extension remove
used by `try_from_unparsed` (§4.1 "decompose"): the key is removed from the
bag and its value (or `null` when absent) is handed to deserialization. -/
def unparsedRemove (k : String) (b : Bag) : Json × Bag :=
  ((bagLookup k b).getD .null, bagErase k b)

/-- The property names of a bag. -/
def bagKeys (b : Bag) : List String :=
  b.map Prod.fst

section BagLemmas

theorem bagLookup_nil (k : String) : bagLookup k ([] : Bag) = none := rfl

theorem bagLookup_cons (k : String) (p : String × Json) (b : Bag) :
    bagLookup k (p :: b) = if p.1 = k then some p.2 else bagLookup k b := by
  by_cases h : p.1 = k
  · simp [bagLookup, List.find?_cons, h]
  · simp [bagLookup, List.find?_cons, h]

theorem bagErase_cons (k : String) (p : String × Json) (b : Bag) :
    bagErase k (p :: b) = if p.1 = k then bagErase k b else p :: bagErase k b := by
  by_cases h : p.1 = k
  · simp [bagErase, List.filter_cons, h]
  · simp [bagErase, List.filter_cons, h]

theorem bagLookup_erase_self (k : String) (b : Bag) :
    bagLookup k (bagErase k b) = none := by
  induction b with
  | nil => rfl
  | cons p b ih =>
    rw [bagErase_cons]
    by_cases h : p.1 = k
    · simpa [h] using ih
    · rw [if_neg h, bagLookup_cons, if_neg h]
      exact ih

theorem bagLookup_erase_ne (k k' : String) (b : Bag) (h : k' ≠ k) :
    bagLookup k' (bagErase k b) = bagLookup k' b := by
  induction b with
  | nil => rfl
  | cons p b ih =>
    rw [bagErase_cons, bagLookup_cons]
    by_cases hp : p.1 = k
    · have hp' : ¬p.1 = k' := fun hc => h (hc ▸ hp)
      rw [if_pos hp, if_neg hp']
      exact ih
    · rw [if_neg hp, bagLookup_cons]
      by_cases hq : p.1 = k'
      · rw [if_pos hq, if_pos hq]
      · rw [if_neg hq, if_neg hq]
        exact ih

theorem bagLookup_mapInsert_self (k : String) (v : Json) (b : Bag) :
    bagLookup k (mapInsert k v b) = some v := by
  rw [mapInsert, bagLookup_cons]
  simp

theorem bagLookup_mapInsert_ne (k k' : String) (v : Json) (b : Bag) (h : k' ≠ k) :
    bagLookup k' (mapInsert k v b) = bagLookup k' b := by
  rw [mapInsert, bagLookup_cons, if_neg (fun hc : k = k' => h hc.symm)]
  exact bagLookup_erase_ne k k' b h

theorem bagLookup_unparsedInsert_self (k : String) (v : Json) (b : Bag)
    (hv : v.isNull = false) :
    bagLookup k (unparsedInsert k v b) = some v := by
  simp [unparsedInsert, hv, bagLookup_mapInsert_self]

theorem unparsedInsert_null (k : String) (b : Bag) :
    unparsedInsert k .null b = b := by
  simp [unparsedInsert, Json.isNull]

theorem bagLookup_unparsedInsert_ne (k k' : String) (v : Json) (b : Bag) (h : k' ≠ k) :
    bagLookup k' (unparsedInsert k v b) = bagLookup k' b := by
  by_cases hv : v.isNull
  · simp [unparsedInsert, hv]
  · simp [unparsedInsert, hv, bagLookup_mapInsert_ne k k' v b h]

theorem bagKeys_erase_nodup (k : String) (b : Bag) (h : (bagKeys b).Nodup) :
    (bagKeys (bagErase k b)).Nodup := by
  induction b with
  | nil => exact h
  | cons p b ih =>
    rw [bagKeys, List.map_cons, List.nodup_cons] at h
    by_cases hp : p.1 = k
    · simpa [bagErase, hp] using ih h.2
    · rw [bagErase, List.filter_cons]
      have hne : (p.1 != k) = true := by simpa using hp
      rw [if_pos hne, bagKeys, List.map_cons, List.nodup_cons]
      refine ⟨fun hmem => h.1 ?_, ih h.2⟩
      rcases List.mem_map.mp hmem with ⟨q, hq, hqk⟩
      exact List.mem_map.mpr ⟨q, List.mem_of_mem_filter hq, hqk⟩

theorem notMem_bagKeys_erase (k : String) (b : Bag) :
    k ∉ bagKeys (bagErase k b) := by
  intro hmem
  rcases List.mem_map.mp hmem with ⟨q, hq, hqk⟩
  have := List.of_mem_filter hq
  simp [hqk] at this

theorem bagKeys_mapInsert_nodup (k : String) (v : Json) (b : Bag)
    (h : (bagKeys b).Nodup) : (bagKeys (mapInsert k v b)).Nodup := by
  rw [mapInsert, bagKeys, List.map_cons, List.nodup_cons]
  exact ⟨notMem_bagKeys_erase k b, bagKeys_erase_nodup k b h⟩

theorem bagKeys_unparsedInsert_nodup (k : String) (v : Json) (b : Bag)
    (h : (bagKeys b).Nodup) : (bagKeys (unparsedInsert k v b)).Nodup := by
  by_cases hv : v.isNull
  · simpa [unparsedInsert, hv] using h
  · simpa [unparsedInsert, hv] using bagKeys_mapInsert_nodup k v b h

end BagLemmas

/-! ## Content negotiator (`ApRequest::from_request`, mod.rs lines 91-121) -/

/-- Rust `str::split(',')`: splits at every comma; adjacent separators and an
empty input yield empty pieces (`""` splits to `[""]`). -/
def splitCommaAux : List Char → List Char → List String
  | [], acc => [String.mk acc.reverse]
  | c :: cs, acc =>
    if c = ',' then String.mk acc.reverse :: splitCommaAux cs []
    else splitCommaAux cs (c :: acc)

/-- The media ranges of an Accept header value: Rust `header.split(',')`. -/
def splitComma (s : String) : List String :=
  splitCommaAux s.data []

/-- Rust `char::is_whitespace` restricted to the ASCII whitespace that can
occur in an HTTP header value. -/
def isWs (c : Char) : Bool :=
  c = ' ' || c = '\t' || c = '\n' || c = '\r'

/-- Rust `str::trim`: strips leading and trailing whitespace. -/
def rustTrim (s : String) : String :=
  String.mk (((s.data.dropWhile isWs).reverse.dropWhile isWs).reverse)

/-- The value folded over the media ranges in `from_request`:
`Outcome::Success(ApRequest)` or `Outcome::Forward(bool)` (the `bool` is the
routing hint of the code comment at line 102). -/
inductive ApOutcome where
  | success
  | forward (hint : Bool)
deriving DecidableEq

/-- Rocket `Outcome::forwarded`: the forward payload, when forwarded. -/
def ApOutcome.forwarded : ApOutcome → Option Bool
  | .forward b => some b
  | .success => none

/-- Rocket `Outcome::is_success`. -/
def ApOutcome.isSuccess : ApOutcome → Bool
  | .success => true
  | _ => false

/-- The four recognized protocol media ranges (`ap_accept_header()`, lines
36-43, as matched by the arms at lines 103-105). -/
def isProtocolMediaRange (t : String) : Bool :=
  t == "application/ld+json; profile=\"https://w3.org/ns/activitystreams\""
    || t == "application/ld+json;profile=\"https://w3.org/ns/activitystreams\""
    || t == "application/activity+json"
    || t == "application/ld+json"

/-- The `match ct.trim()` arm of `from_request` (lines 101-109): the four
recognized protocol strings map to `Success`, `text/html` to `Forward(true)`,
anything else to `Forward(false)`. -/
def classifyRange (ct : String) : ApOutcome :=
  if isProtocolMediaRange (rustTrim ct) then .success
  else if rustTrim ct = "text/html" then .forward true
  else .forward false

/-- The fold body of lines 110-116:
`if out.forwarded().unwrap_or_else(|| out.is_success()) { out } else { ct }`. -/
def foldStep (out ct : ApOutcome) : ApOutcome :=
  if out.forwarded.getD out.isSuccess then out else ct

/-- The fold over all classified media ranges of a present Accept header,
starting from `Outcome::Forward(false)` (lines 99-116). -/
def acceptFold (h : String) : ApOutcome :=
  ((splitComma h).map classifyRange).foldl foldStep (.forward false)

/-- The value `from_request` returns: `Outcome::Success(ApRequest)` or, after
`map_forward(|_| ())` / the absent-header `Outcome::Forward(())`, a forward
whose payload is unit. -/
inductive ApResult where
  | success
  | forwardUnit
deriving DecidableEq

/-- `ApRequest::from_request` (lines 94-120): classify the Accept header when
present, `Outcome::Forward(())` when absent; a fold result `Forward(b)` is
collapsed to `Forward(())` by `map_forward`. -/
def fromRequest : Option String → ApResult
  | some h =>
    match acceptFold h with
    | .success => .success
    | .forward _ => .forwardUnit
  | none => .forwardUnit

/-- Specification of the fold: the result is the first classified range that
is not `Forward(false)`, else `Forward(false)`. -/
def firstSticky : List ApOutcome → ApOutcome
  | [] => .forward false
  | x :: xs => if x = .forward false then firstSticky xs else x

theorem foldStep_sticky (out ct : ApOutcome) (h : out ≠ .forward false) :
    foldStep out ct = out := by
  cases out with
  | success => rfl
  | forward b =>
    cases b with
    | true => rfl
    | false => exact absurd rfl h

theorem foldStep_false (ct : ApOutcome) : foldStep (.forward false) ct = ct := rfl

theorem foldl_sticky (out : ApOutcome) (l : List ApOutcome) (h : out ≠ .forward false) :
    l.foldl foldStep out = out := by
  induction l with
  | nil => rfl
  | cons x xs ih => rw [List.foldl_cons, foldStep_sticky out x h, ih]

theorem acceptFold_eq_firstSticky (l : List ApOutcome) :
    l.foldl foldStep (.forward false) = firstSticky l := by
  induction l with
  | nil => rfl
  | cons x xs ih =>
    rw [List.foldl_cons, foldStep_false, firstSticky]
    by_cases h : x = .forward false
    · rw [if_pos h, h]
      exact ih
    · rw [if_neg h, foldl_sticky x xs h]

theorem firstSticky_append_success (l1 l2 : List ApOutcome)
    (h1 : ∀ x ∈ l1, x = .forward false) :
    firstSticky (l1 ++ .success :: l2) = .success := by
  induction l1 with
  | nil => rfl
  | cons x xs ih =>
    rw [List.cons_append, firstSticky,
      if_pos (h1 x (List.mem_cons_self x xs))]
    exact ih fun y hy => h1 y (List.mem_cons_of_mem x hy)

theorem firstSticky_no_success (l : List ApOutcome)
    (h : ∀ x ∈ l, x ≠ .success) :
    firstSticky l = .forward (decide ((.forward true) ∈ l)) := by
  induction l with
  | nil => rfl
  | cons x xs ih =>
    rw [firstSticky]
    by_cases hx : x = .forward false
    · rw [if_pos hx, ih fun y hy => h y (List.mem_cons_of_mem x hy), hx]
      by_cases hmem : (ApOutcome.forward true) ∈ xs
      · simp [hmem]
      · simp [hmem]
    · rw [if_neg hx]
      cases x with
      | success => exact absurd rfl (h .success (List.mem_cons_self _ _))
      | forward b =>
        cases b with
        | false => exact absurd rfl hx
        | true => simp

/-! ## Canonical JSON-LD context and envelope (mod.rs lines 30, 45-87) -/

/-- `CONTEXT_URL` (line 30). -/
def CONTEXT_URL : String := "https://www.w3.org/ns/activitystreams"

/-- The alias map of `context()` (lines 49-65). -/
def contextAliases : List (String × Json) :=
  [("manuallyApprovesFollowers", .str "as:manuallyApprovesFollowers"),
   ("sensitive", .str "as:sensitive"),
   ("movedTo", .str "as:movedTo"),
   ("Hashtag", .str "as:Hashtag"),
   ("ostatus", .str "http://ostatus.org#"),
   ("atomUri", .str "ostatus:atomUri"),
   ("inReplyToAtomUri", .str "ostatus:inReplyToAtomUri"),
   ("conversation", .str "ostatus:conversation"),
   ("toot", .str "http://joinmastodon.org/ns#"),
   ("Emoji", .str "toot:Emoji"),
   ("focalPoint", .obj [("@container", .str "@list"), ("@id", .str "toot:focalPoint")]),
   ("featured", .str "toot:featured")]

/-- `context()` (lines 45-67): the fixed canonical `@context` value. -/
def context : Json :=
  .arr [.str CONTEXT_URL, .str "https://w3id.org/security/v1", .obj contextAliases]

/-- `json["@context"] = context()`: serde_json's `IndexMut<&str>` inserts into
an object, treats `Null` as an empty object, and panics (modelled `none`) on
any other value. -/
def jsonSetContext : Json → Option Json
  | .obj fields => some (.obj (mapInsert "@context" context fields))
  | .null => some (.obj [("@context", context)])
  | _ => none

mutual

/-- `serde_json::to_string` on the embedded JSON values.  String escaping is
irrelevant to every claim and is omitted; all that matters is that rendering
is a function of the value. -/
def Json.render : Json → String
  | .null => "null"
  | .bool b => if b then "true" else "false"
  | .num n => toString n
  | .str s => "\x22" ++ s ++ "\x22"
  | .arr elems => "[" ++ Json.renderList elems ++ "]"
  | .obj fields => "\x7b" ++ Json.renderObj fields ++ "\x7d"

def Json.renderList : List Json → String
  | [] => ""
  | [v] => Json.render v
  | v :: vs => Json.render v ++ "," ++ Json.renderList vs

def Json.renderObj : List (String × Json) → String
  | [] => ""
  | [(k, v)] => "\x22" ++ k ++ "\x22:" ++ Json.render v
  | (k, v) :: fs => "\x22" ++ k ++ "\x22:" ++ Json.render v ++ "," ++ Json.renderObj fs

end

/-- What `ActivityStream::respond_to` produces: a body with a content type, a
`Status::InternalServerError` (on serialization failure), or the panic of the
`@context` index assignment on a non-object value. -/
inductive RespondOutcome where
  | ok (body contentType : String)
  | internalServerError
  | panicked
deriving DecidableEq

/-- `ActivityStream::respond_to` (lines 78-87), with the serialization of the
wrapped entity passed as `none` (a `serde_json::to_value` error) or `some`. -/
def activityStreamRespondTo (serialized : Option Json) : RespondOutcome :=
  match serialized with
  | none => .internalServerError
  | some j =>
    match jsonSetContext j with
    | some j' => .ok (Json.render j') "application/activity+json"
    | none => .panicked

/-! ## `Id` (mod.rs lines 275-288) -/

/-- `Id(String)` (line 276). -/
structure Id where
  val : String
deriving DecidableEq

/-- `Id::new` (lines 279-281); `impl ToString` instantiated at a string, whose
`to_string` is the identity. -/
def Id.new (s : String) : Id := ⟨s⟩

/-- `AsRef<str> for Id` (lines 284-288). -/
def Id.asRef (i : Id) : String := i.val

/-- Modelled from the spec: serde's derived `Serialize` for the newtype struct
`Id(String)` (line 275) serializes it transparently as the bare inner
string. -/
def Id.serialize (i : Id) : Json := .str i.val

/-- Modelled from the spec: serde's derived `Deserialize` for the newtype
struct `Id(String)` accepts exactly a JSON string. -/
def Id.deserialize : Json → Option Id
  | .str s => some ⟨s⟩
  | _ => none

/-! ## Broadcast dispatcher (`broadcast` lines 122-197, `broadcast07` lines 199-273) -/

/-- Modelled from the spec: the Delivery Target capability of §3
(`is_local() -> bool`, `inbox_url() -> string`,
`shared_inbox_url() -> Option<string>`); the `inbox::AsActor` trait lives in
`mod inbox`, which is not part of this file. -/
structure Recipient where
  isLocal : Bool
  inboxUrl : String
  sharedInboxUrl : Option String

/-- `u.get_shared_inbox_url().unwrap_or_else(|| u.get_inbox_url())`
(lines 132-133 and 208-209). -/
def Recipient.target (u : Recipient) : String :=
  u.sharedInboxUrl.getD u.inboxUrl

/-- `array_tool::vec::Uniq::unique` (the `.unique()` of lines 136 and 212):
removes duplicates, keeping the first occurrence of each value. -/
def uniqueAux (seen : List String) : List String → List String
  | [] => []
  | x :: xs => if x ∈ seen then uniqueAux seen xs else x :: uniqueAux (x :: seen) xs

/-- Deduplication by URL value, first occurrence kept. -/
def unique (l : List String) : List String := uniqueAux [] l

/-- The destination list of `broadcast` (lines 128-136): drop local
recipients, map to the preferred inbox URL, deduplicate. -/
def broadcastBoxes (recips : List Recipient) : List String :=
  unique ((recips.filter (fun u => !u.isLocal)).map Recipient.target)

/-- The destination list of `broadcast07` (lines 205-212): map every
recipient to the preferred inbox URL, deduplicate.  (No `is_local` filter
appears in the source.) -/
def broadcast07Boxes (recips : List Recipient) : List String :=
  unique (recips.map Recipient.target)

/-- A parsed URL as the dispatcher reads it: `has_host()` / `host_str()`,
`path()`, `query()`. -/
structure ParsedUrl where
  host : Option String
  path : String
  query : Option String

/-- Modelled from the spec: the external capabilities the dispatch loop
calls — §3's Signer and the URL/digest/header utilities of `mod request` and
`mod sign`, which are not part of this file.  `parseUrl` is `Url::parse`
(`none` = malformed), `headerValueOk` is `HeaderValue::from_str(..).is_ok()`,
`digest` is `request::Digest::digest`, `signDoc` is `Signable::sign` on the
whole document, and `reqSignature` is `request::signature` over the headers
and `("post", path, query)`. -/
structure BroadcastEnv where
  parseUrl : String → Option ParsedUrl
  headerValueOk : String → Bool
  defaultHeaders : List (String × String)
  digest : String → String
  signDoc : Json → Option Json
  reqSignature : List (String × String) → String × String × Option String → Option String

/-- `HeaderMap::insert`: replaces any previous value of the header. -/
def hdrInsert (k v : String) (hs : List (String × String)) : List (String × String) :=
  (k, v) :: hs.filter (fun p => p.1 != k)

/-- `HeaderMap::get`. -/
def hdrLookup (k : String) (hs : List (String × String)) : Option String :=
  (List.find? (fun p => p.1 == k) hs).map Prod.snd

/-- One dispatched HTTP POST: the inbox URL it targets, its headers
(including the destination-specific Host and Digest), its Signature header
and its body. -/
structure DispatchRequest where
  url : String
  headers : List (String × String)
  signature : String
  body : String
deriving DecidableEq

/-- The outcome of the per-destination part of the loop body: skipped with a
warning (`continue`), a process-fatal `.expect` panic in
`request::signature`, or a dispatched request. -/
inductive DestOutcome where
  | skipped (warning : String)
  | fatal
  | dispatched (r : DispatchRequest)
deriving DecidableEq

/-- The headers of one destination's request (lines 148, 164-165): the
transport defaults of `request::headers()` with the destination's Host and
the shared body's Digest inserted. -/
def destHeaders (env : BroadcastEnv) (body host : String) : List (String × String) :=
  hdrInsert "Digest" (env.digest body) (hdrInsert "Host" host env.defaultHeaders)

/-- The body of the `for inbox in boxes` loop (lines 146-194 / 222-270):
parse the URL (malformed → warn and continue), check the host (absent → warn
and continue), build the Host header value (invalid → warn and continue),
insert Host and Digest, sign the request (`.expect` → fatal), and otherwise
produce the POST. -/
def processDest (env : BroadcastEnv) (body : String) (inbox : String) : DestOutcome :=
  match env.parseUrl inbox with
  | none => .skipped ("Inbox is invalid URL: " ++ inbox)
  | some url =>
    match url.host with
    | none => .skipped ("Inbox doesn't have host: " ++ inbox)
    | some host =>
      if env.headerValueOk host then
        match env.reqSignature (destHeaders env body host) ("post", url.path, url.query) with
        | none => .fatal
        | some sig => .dispatched ⟨inbox, destHeaders env body host, sig, body⟩
      else .skipped ("Header value is invalid: " ++ host)

/-- The whole destination loop: the dispatched requests and the recorded
warnings, in order; `none` when a fatal `.expect` panic aborts the call. -/
def dispatchLoop (env : BroadcastEnv) (body : String) :
    List String → Option (List DispatchRequest × List String)
  | [] => some ([], [])
  | d :: ds =>
    match processDest env body d with
    | .skipped w => (dispatchLoop env body ds).map (fun p => (p.1, w :: p.2))
    | .fatal => none
    | .dispatched r => (dispatchLoop env body ds).map (fun p => (r :: p.1, p.2))

/-- The shared part of `broadcast`/`broadcast07` after destination
resolution (lines 138-196 / 214-272): serialize the activity (`none` = the
`serde_json::to_value` error, fatal), overwrite `@context`, sign the whole
document (fatal on failure), render the canonical body text once, then run
the destination loop. -/
def broadcastRun (env : BroadcastEnv) (actSer : Option Json) (boxes : List String) :
    Option (List DispatchRequest × List String) := do
  let act ← actSer
  let withCtx ← jsonSetContext act
  let signed ← env.signDoc withCtx
  dispatchLoop env (Json.render signed) boxes

/-- `broadcast` (lines 122-197); `actSer` is `serde_json::to_value(act)`. -/
def broadcastModel (env : BroadcastEnv) (actSer : Option Json) (recips : List Recipient) :
    Option (List DispatchRequest × List String) :=
  broadcastRun env actSer (broadcastBoxes recips)

/-- `broadcast07` (lines 199-273); `actSer` is `serde_json::to_value(act)`. -/
def broadcast07Model (env : BroadcastEnv) (actSer : Option Json) (recips : List Recipient) :
    Option (List DispatchRequest × List String) :=
  broadcastRun env actSer (broadcast07Boxes recips)

section UniqueLemmas

theorem mem_uniqueAux (x : String) (seen l : List String) :
    x ∈ uniqueAux seen l ↔ x ∈ l ∧ x ∉ seen := by
  induction l generalizing seen with
  | nil => simp [uniqueAux]
  | cons y ys ih =>
    rw [uniqueAux]
    by_cases hy : y ∈ seen
    · rw [if_pos hy, ih]
      constructor
      · exact fun h => ⟨List.mem_cons_of_mem y h.1, h.2⟩
      · rintro ⟨h1, h2⟩
        rcases List.mem_cons.mp h1 with rfl | h1
        · exact absurd hy h2
        · exact ⟨h1, h2⟩
    · rw [if_neg hy, List.mem_cons, ih]
      constructor
      · rintro (rfl | ⟨h1, h2⟩)
        · exact ⟨List.mem_cons_self x ys, hy⟩
        · refine ⟨List.mem_cons_of_mem y h1, fun hc => h2 (List.mem_cons_of_mem y hc)⟩
      · rintro ⟨h1, h2⟩
        rcases List.mem_cons.mp h1 with rfl | h1
        · exact Or.inl rfl
        · by_cases hx : x = y
          · exact Or.inl hx
          · exact Or.inr ⟨h1, by simpa [List.mem_cons, hx] using h2⟩

theorem nodup_uniqueAux (seen l : List String) : (uniqueAux seen l).Nodup := by
  induction l generalizing seen with
  | nil => exact List.nodup_nil
  | cons y ys ih =>
    rw [uniqueAux]
    by_cases hy : y ∈ seen
    · rw [if_pos hy]
      exact ih seen
    · rw [if_neg hy, List.nodup_cons]
      refine ⟨fun hc => ?_, ih (y :: seen)⟩
      exact ((mem_uniqueAux y (y :: seen) ys).mp hc).2 (List.mem_cons_self y seen)

theorem mem_unique (x : String) (l : List String) : x ∈ unique l ↔ x ∈ l := by
  rw [unique, mem_uniqueAux]
  simp

theorem nodup_unique (l : List String) : (unique l).Nodup :=
  nodup_uniqueAux [] l

end UniqueLemmas

/-! ## Typed vocabulary extensions (mod.rs lines 316-576)

`try_from_unparsed` (decompose) and `try_into_unparsed` (compose) for the
five constructed extension types, over the property-bag model.  Field
(de)serialization is spec-modelled: a required key that is absent or not of
the canonical shape is a SerializationError (§4.1); optional fields absent
from the bag decode to `none`. -/

/-- `PublicKey07` (lines 322-328). -/
structure PublicKey07 where
  id : String
  owner : String
  publicKeyPem : String

/-- Modelled from the spec: serde deserialization of a `PublicKey07` property
value, succeeding exactly on its canonical camelCase shape. -/
def PublicKey07.fromJson : Json → Option PublicKey07
  | .obj [("id", .str i), ("owner", .str o), ("publicKeyPem", .str p)] => some ⟨i, o, p⟩
  | _ => none

/-- Modelled from the spec: serde serialization of `PublicKey07` (camelCase,
declaration order). -/
def PublicKey07.toJson (pk : PublicKey07) : Json :=
  .obj [("id", .str pk.id), ("owner", .str pk.owner), ("publicKeyPem", .str pk.publicKeyPem)]

/-- `ApSignature07` (lines 316-320). -/
structure ApSignature07 where
  publicKey : PublicKey07

/-- `ApSignature07::try_from_unparsed` (lines 336-340): remove `publicKey`
(required) and deserialize it. -/
def ApSignature07.tryFromUnparsed (b : Bag) : Option (ApSignature07 × Bag) :=
  (PublicKey07.fromJson (unparsedRemove "publicKey" b).1).map
    (fun pk => (⟨pk⟩, (unparsedRemove "publicKey" b).2))

/-- `ApSignature07::try_into_unparsed` (lines 342-345): reinsert `publicKey`. -/
def ApSignature07.tryIntoUnparsed (s : ApSignature07) (b : Bag) : Bag :=
  unparsedInsert "publicKey" s.publicKey.toJson b

/-- `Source` (lines 513-519). -/
structure Source where
  mediaType : String
  content : String

/-- Modelled from the spec: serde deserialization of a `Source` property
value (used by `ActorSource`), canonical camelCase shape only. -/
def Source.fromJson : Json → Option Source
  | .obj [("mediaType", .str m), ("content", .str c)] => some ⟨m, c⟩
  | _ => none

/-- Modelled from the spec: serde serialization of `Source` (camelCase,
declaration order). -/
def Source.toJson (s : Source) : Json :=
  .obj [("mediaType", .str s.mediaType), ("content", .str s.content)]

/-- `Source::try_from_unparsed` (lines 529-534): remove `content`, then
`mediaType`, both required strings. -/
def Source.tryFromUnparsed (b : Bag) : Option (Source × Bag) :=
  match (unparsedRemove "content" b).1 with
  | .str c =>
    match (unparsedRemove "mediaType" (unparsedRemove "content" b).2).1 with
    | .str m => some (⟨m, c⟩, (unparsedRemove "mediaType" (unparsedRemove "content" b).2).2)
    | _ => none
  | _ => none

/-- `Source::try_into_unparsed` (lines 536-540): insert `content`, then
`mediaType`. -/
def Source.tryIntoUnparsed (s : Source) (b : Bag) : Bag :=
  unparsedInsert "mediaType" (.str s.mediaType) (unparsedInsert "content" (.str s.content) b)

/-- `ActorSource` (lines 348-352). -/
structure ActorSource where
  source : Source

/-- `ActorSource::try_from_unparsed` (lines 360-364): remove `source`
(required) and deserialize it. -/
def ActorSource.tryFromUnparsed (b : Bag) : Option (ActorSource × Bag) :=
  (Source.fromJson (unparsedRemove "source" b).1).map
    (fun s => (⟨s⟩, (unparsedRemove "source" b).2))

/-- `ActorSource::try_into_unparsed` (lines 366-369): reinsert `source`. -/
def ActorSource.tryIntoUnparsed (a : ActorSource) (b : Bag) : Bag :=
  unparsedInsert "source" a.source.toJson b

/-- `Licensed07` (lines 552-556). -/
structure Licensed07 where
  license : String

/-- `Licensed07::try_from_unparsed` (lines 564-568): remove `license`
(required string). -/
def Licensed07.tryFromUnparsed (b : Bag) : Option (Licensed07 × Bag) :=
  match (unparsedRemove "license" b).1 with
  | .str l => some (⟨l⟩, (unparsedRemove "license" b).2)
  | _ => none

/-- `Licensed07::try_into_unparsed` (lines 570-573): reinsert `license`. -/
def Licensed07.tryIntoUnparsed (l : Licensed07) (b : Bag) : Bag :=
  unparsedInsert "license" (.str l.license) b

/-- Modelled from the spec: deserialization of an optional string-valued
field (`Option<IriString>` / `Option<AnyString>`): an absent key (`null`)
decodes to `none`, a string to `some`, anything else is an error (§4.1). -/
def optStrFromJson : Json → Option (Option String)
  | .null => some none
  | .str s => some (some s)
  | _ => none

/-- Serialization of an optional string-valued field: `none` serializes to
`null` (which `unparsedInsert` then drops). -/
def optStrToJson : Option String → Json
  | none => .null
  | some s => .str s

/-- `Hashtag07` (lines 394-404): optional `href` and `name` over an inner
object, which is its remaining property bag. -/
structure Hashtag07 where
  href : Option String
  name : Option String
  inner : Bag

/-- `Hashtag07::extending` (lines 415-420): remove `href`, then `name`, both
optional. -/
def Hashtag07.extending (inner : Bag) : Option Hashtag07 :=
  match optStrFromJson (unparsedRemove "href" inner).1 with
  | none => none
  | some href =>
    match optStrFromJson (unparsedRemove "name" (unparsedRemove "href" inner).2).1 with
    | none => none
    | some name => some ⟨href, name, (unparsedRemove "name" (unparsedRemove "href" inner).2).2⟩

/-- `Hashtag07::retracting` (lines 422-432): insert `href`, then `name`. -/
def Hashtag07.retracting (h : Hashtag07) : Bag :=
  unparsedInsert "name" (optStrToJson h.name) (unparsedInsert "href" (optStrToJson h.href) h.inner)

/-- Two bags carry the same property set: every key maps to the same value. -/
def bagEquiv (b1 b2 : Bag) : Prop := ∀ k, bagLookup k b1 = bagLookup k b2

section RoundtripLemmas

theorem publicKey07_toJson_of_fromJson (v : Json) (pk : PublicKey07)
    (h : PublicKey07.fromJson v = some pk) : pk.toJson = v ∧ v.isNull = false := by
  unfold PublicKey07.fromJson at h
  split at h
  · simp only [Option.some.injEq] at h
    subst h
    exact ⟨rfl, rfl⟩
  · cases h

theorem source_toJson_of_fromJson (v : Json) (s : Source)
    (h : Source.fromJson v = some s) : s.toJson = v ∧ v.isNull = false := by
  unfold Source.fromJson at h
  split at h
  · simp only [Option.some.injEq] at h
    subst h
    exact ⟨rfl, rfl⟩
  · cases h

/-- Removing a key and reinserting its (non-null) original value restores the
property set and preserves key uniqueness. -/
theorem roundtrip_single (key : String) (b : Bag) (v : Json)
    (hv : bagLookup key b = some v) (hnn : v.isNull = false) :
    bagEquiv (unparsedInsert key v (bagErase key b)) b ∧
    ((bagKeys b).Nodup → (bagKeys (unparsedInsert key v (bagErase key b))).Nodup) := by
  constructor
  · intro k
    by_cases hk : k = key
    · subst hk
      rw [bagLookup_unparsedInsert_self k v _ hnn, hv]
    · rw [bagLookup_unparsedInsert_ne key k v _ hk, bagLookup_erase_ne key k b hk]
  · intro hnd
    exact bagKeys_unparsedInsert_nodup key v _ (bagKeys_erase_nodup key b hnd)

theorem apSignature07_roundtrip (b : Bag) (s : ApSignature07) (rest : Bag)
    (h : ApSignature07.tryFromUnparsed b = some (s, rest)) :
    bagEquiv (s.tryIntoUnparsed rest) b ∧
    ((bagKeys b).Nodup → (bagKeys (s.tryIntoUnparsed rest)).Nodup) := by
  unfold ApSignature07.tryFromUnparsed at h
  simp only [unparsedRemove] at h
  cases hl : bagLookup "publicKey" b with
  | none =>
    rw [hl] at h
    simp [PublicKey07.fromJson] at h
  | some v =>
    rw [hl] at h
    cases hpk : PublicKey07.fromJson v with
    | none => simp [hpk] at h
    | some pk =>
      simp only [Option.getD_some, hpk, Option.map_some', Option.some.injEq,
        Prod.mk.injEq] at h
      obtain ⟨hs, hrest⟩ := h
      obtain ⟨htj, hnn⟩ := publicKey07_toJson_of_fromJson v pk hpk
      subst hrest
      have hkey : s.publicKey.toJson = v := by rw [← hs, htj]
      unfold ApSignature07.tryIntoUnparsed
      rw [hkey]
      exact roundtrip_single "publicKey" b v hl hnn

theorem actorSource_roundtrip (b : Bag) (a : ActorSource) (rest : Bag)
    (h : ActorSource.tryFromUnparsed b = some (a, rest)) :
    bagEquiv (a.tryIntoUnparsed rest) b ∧
    ((bagKeys b).Nodup → (bagKeys (a.tryIntoUnparsed rest)).Nodup) := by
  unfold ActorSource.tryFromUnparsed at h
  simp only [unparsedRemove] at h
  cases hl : bagLookup "source" b with
  | none =>
    rw [hl] at h
    simp [Source.fromJson] at h
  | some v =>
    rw [hl] at h
    cases hsv : Source.fromJson v with
    | none => simp [hsv] at h
    | some sv =>
      simp only [Option.getD_some, hsv, Option.map_some', Option.some.injEq,
        Prod.mk.injEq] at h
      obtain ⟨ha, hrest⟩ := h
      obtain ⟨htj, hnn⟩ := source_toJson_of_fromJson v sv hsv
      subst hrest
      have hkey : a.source.toJson = v := by rw [← ha, htj]
      unfold ActorSource.tryIntoUnparsed
      rw [hkey]
      exact roundtrip_single "source" b v hl hnn

theorem licensed07_roundtrip (b : Bag) (l : Licensed07) (rest : Bag)
    (h : Licensed07.tryFromUnparsed b = some (l, rest)) :
    bagEquiv (l.tryIntoUnparsed rest) b ∧
    ((bagKeys b).Nodup → (bagKeys (l.tryIntoUnparsed rest)).Nodup) := by
  unfold Licensed07.tryFromUnparsed at h
  simp only [unparsedRemove] at h
  cases hl : bagLookup "license" b with
  | none =>
    rw [hl] at h
    simp at h
  | some v =>
    rw [hl] at h
    cases v with
    | str sv =>
      simp only [Option.getD_some, Option.some.injEq, Prod.mk.injEq] at h
      obtain ⟨hs, hrest⟩ := h
      subst hrest
      have hkey : Json.str l.license = .str sv := by rw [← hs]
      unfold Licensed07.tryIntoUnparsed
      rw [hkey]
      exact roundtrip_single "license" b (.str sv) hl rfl
    | null => simp at h
    | bool bb => simp at h
    | num n => simp at h
    | arr es => simp at h
    | obj fs => simp at h

theorem source_roundtrip (b : Bag) (s : Source) (rest : Bag)
    (h : Source.tryFromUnparsed b = some (s, rest)) :
    bagEquiv (s.tryIntoUnparsed rest) b ∧
    ((bagKeys b).Nodup → (bagKeys (s.tryIntoUnparsed rest)).Nodup) := by
  unfold Source.tryFromUnparsed at h
  simp only [unparsedRemove] at h
  cases hc : bagLookup "content" b with
  | none => rw [hc] at h; simp at h
  | some vc =>
    rw [hc] at h
    cases vc with
    | str c =>
      simp only [Option.getD_some] at h
      cases hm : bagLookup "mediaType" (bagErase "content" b) with
      | none => rw [hm] at h; simp at h
      | some vm =>
        rw [hm] at h
        cases vm with
        | str m =>
          simp only [Option.getD_some, Option.some.injEq, Prod.mk.injEq] at h
          obtain ⟨hs, hrest⟩ := h
          subst hrest
          have hsm : Json.str s.mediaType = .str m := by rw [← hs]
          have hsc : Json.str s.content = .str c := by rw [← hs]
          have hmb : bagLookup "mediaType" b = some (.str m) := by
            rw [← bagLookup_erase_ne "content" "mediaType" b (by decide)]
            exact hm
          constructor
          · intro k
            unfold Source.tryIntoUnparsed
            rw [hsm, hsc]
            by_cases hk1 : k = "mediaType"
            · subst hk1
              rw [bagLookup_unparsedInsert_self "mediaType" (Json.str m) _ rfl, hmb]
            · rw [bagLookup_unparsedInsert_ne "mediaType" k _ _ hk1]
              by_cases hk2 : k = "content"
              · subst hk2
                rw [bagLookup_unparsedInsert_self "content" (Json.str c) _ rfl, hc]
              · rw [bagLookup_unparsedInsert_ne "content" k _ _ hk2,
                  bagLookup_erase_ne "mediaType" k _ hk1,
                  bagLookup_erase_ne "content" k _ hk2]
          · intro hnd
            exact bagKeys_unparsedInsert_nodup _ _ _
              (bagKeys_unparsedInsert_nodup _ _ _
                (bagKeys_erase_nodup _ _ (bagKeys_erase_nodup _ _ hnd)))
        | null => simp at h
        | bool bb => simp at h
        | num n => simp at h
        | arr es => simp at h
        | obj fs => simp at h
    | null => simp at h
    | bool bb => simp at h
    | num n => simp at h
    | arr es => simp at h
    | obj fs => simp at h

theorem optStrFromJson_cases (x : Json) (o : Option String)
    (h : optStrFromJson x = some o) :
    (x = .null ∧ o = none) ∨ ∃ t, x = .str t ∧ o = some t := by
  cases x with
  | null =>
    simp only [optStrFromJson, Option.some.injEq] at h
    exact Or.inl ⟨rfl, h.symm⟩
  | str t =>
    simp only [optStrFromJson, Option.some.injEq] at h
    exact Or.inr ⟨t, rfl, h.symm⟩
  | bool bb => simp [optStrFromJson] at h
  | num n => simp [optStrFromJson] at h
  | arr es => simp [optStrFromJson] at h
  | obj fs => simp [optStrFromJson] at h

theorem lookup_of_getD_str (key : String) (b : Bag) (t : String)
    (h : (bagLookup key b).getD .null = .str t) :
    bagLookup key b = some (.str t) := by
  cases hl : bagLookup key b with
  | none =>
    rw [hl] at h
    exact absurd h (by simp)
  | some v =>
    rw [hl] at h
    simp only [Option.getD_some] at h
    rw [h]

theorem lookup_of_getD_null (key : String) (b : Bag)
    (hne : bagLookup key b ≠ some .null)
    (h : (bagLookup key b).getD .null = .null) :
    bagLookup key b = none := by
  cases hl : bagLookup key b with
  | none => rfl
  | some v =>
    rw [hl] at h
    simp only [Option.getD_some] at h
    rw [h] at hl
    exact absurd hl hne

theorem hashtag07_roundtrip (inner : Bag) (h : Hashtag07)
    (hh : bagLookup "href" inner ≠ some .null)
    (hn : bagLookup "name" inner ≠ some .null)
    (he : Hashtag07.extending inner = some h) :
    bagEquiv h.retracting inner ∧
    ((bagKeys inner).Nodup → (bagKeys h.retracting).Nodup) := by
  unfold Hashtag07.extending at he
  simp only [unparsedRemove] at he
  cases hhref : optStrFromJson ((bagLookup "href" inner).getD .null) with
  | none =>
    simp only [hhref] at he
    exact Option.noConfusion he
  | some href =>
    cases hname : optStrFromJson ((bagLookup "name" (bagErase "href" inner)).getD .null) with
    | none =>
      simp only [hhref, hname] at he
      exact Option.noConfusion he
    | some name =>
      simp only [hhref, hname, Option.some.injEq] at he
      subst he
      have hnB : bagLookup "name" (bagErase "href" inner) = bagLookup "name" inner :=
        bagLookup_erase_ne "href" "name" inner (by decide)
      have hrefFact : (href = none ∧ bagLookup "href" inner = none) ∨
          ∃ t, href = some t ∧ bagLookup "href" inner = some (.str t) := by
        rcases optStrFromJson_cases _ _ hhref with ⟨hx, ho⟩ | ⟨t, hx, ho⟩
        · exact Or.inl ⟨ho, lookup_of_getD_null "href" inner hh hx⟩
        · exact Or.inr ⟨t, ho, lookup_of_getD_str "href" inner t hx⟩
      have hnameFact : (name = none ∧ bagLookup "name" inner = none) ∨
          ∃ t, name = some t ∧ bagLookup "name" inner = some (.str t) := by
        rw [hnB] at hname
        rcases optStrFromJson_cases _ _ hname with ⟨hx, ho⟩ | ⟨t, hx, ho⟩
        · exact Or.inl ⟨ho, lookup_of_getD_null "name" inner hn hx⟩
        · exact Or.inr ⟨t, ho, lookup_of_getD_str "name" inner t hx⟩
      constructor
      · intro k
        unfold Hashtag07.retracting
        by_cases hk1 : k = "name"
        · subst hk1
          rcases hnameFact with ⟨h0, hl0⟩ | ⟨t, ht, hl0⟩
          · subst h0
            rw [show optStrToJson none = .null from rfl, unparsedInsert_null,
              bagLookup_unparsedInsert_ne "href" "name" _ _ (by decide),
              bagLookup_erase_self, hl0]
          · subst ht
            rw [show optStrToJson (some t) = .str t from rfl,
              bagLookup_unparsedInsert_self "name" (Json.str t) _ rfl, hl0]
        · rw [bagLookup_unparsedInsert_ne "name" k _ _ hk1]
          by_cases hk2 : k = "href"
          · subst hk2
            rcases hrefFact with ⟨h0, hl0⟩ | ⟨t, ht, hl0⟩
            · subst h0
              rw [show optStrToJson none = .null from rfl, unparsedInsert_null,
                bagLookup_erase_ne "name" "href" _ (by decide),
                bagLookup_erase_self, hl0]
            · subst ht
              rw [show optStrToJson (some t) = .str t from rfl,
                bagLookup_unparsedInsert_self "href" (Json.str t) _ rfl, hl0]
          · rw [bagLookup_unparsedInsert_ne "href" k _ _ hk2,
              bagLookup_erase_ne "name" k _ hk1,
              bagLookup_erase_ne "href" k _ hk2]
      · intro hnd
        unfold Hashtag07.retracting
        exact bagKeys_unparsedInsert_nodup _ _ _
          (bagKeys_unparsedInsert_nodup _ _ _
            (bagKeys_erase_nodup _ _ (bagKeys_erase_nodup _ _ hnd)))

end RoundtripLemmas

section DispatchLemmas

/-- The request a loop-body outcome dispatches, if any. -/
def destOutcomeReq : DestOutcome → Option DispatchRequest
  | .dispatched r => some r
  | _ => none

/-- The warning a loop-body outcome records, if any. -/
def destOutcomeWarning : DestOutcome → Option String
  | .skipped w => some w
  | _ => none

/-- When no destination panics the per-destination signing, the loop yields
exactly the dispatched request of every valid destination and the warning of
every skipped one, in order: a skipped destination affects nothing else. -/
theorem dispatchLoop_filterMap (env : BroadcastEnv) (body : String) (ds : List String)
    (hnf : ∀ d ∈ ds, processDest env body d ≠ .fatal) :
    dispatchLoop env body ds =
      some (ds.filterMap (fun d => destOutcomeReq (processDest env body d)),
            ds.filterMap (fun d => destOutcomeWarning (processDest env body d))) := by
  induction ds with
  | nil => rfl
  | cons d ds ih =>
    have hd := hnf d (List.mem_cons_self d ds)
    have ih' := ih fun x hx => hnf x (List.mem_cons_of_mem d hx)
    simp only [dispatchLoop]
    cases hp : processDest env body d with
    | skipped w =>
      rw [ih']
      simp [List.filterMap_cons, hp, destOutcomeReq, destOutcomeWarning]
    | fatal => exact absurd hp hd
    | dispatched r =>
      rw [ih']
      simp [List.filterMap_cons, hp, destOutcomeReq, destOutcomeWarning]

theorem processDest_dispatched (env : BroadcastEnv) (body inbox : String)
    (r : DispatchRequest) (h : processDest env body inbox = .dispatched r) :
    r.body = body ∧ hdrLookup "Digest" r.headers = some (env.digest body) ∧
    r.url = inbox := by
  unfold processDest at h
  cases hp : env.parseUrl inbox with
  | none =>
    simp only [hp] at h
    cases h
  | some url =>
    simp only [hp] at h
    cases hh : url.host with
    | none =>
      simp only [hh] at h
      cases h
    | some host =>
      simp only [hh] at h
      by_cases hok : env.headerValueOk host
      · rw [if_pos hok] at h
        cases hs : env.reqSignature (destHeaders env body host) ("post", url.path, url.query) with
        | none => rw [hs] at h; cases h
        | some sig =>
          rw [hs] at h
          injection h with h
          subst h
          refine ⟨rfl, ?_, rfl⟩
          simp [hdrLookup, destHeaders, hdrInsert]
      · rw [if_neg hok] at h; cases h

/-- Every request the loop dispatches carries the shared body and its
digest. -/
theorem dispatchLoop_body (env : BroadcastEnv) (body : String) (ds : List String)
    (reqs : List DispatchRequest) (warns : List String)
    (h : dispatchLoop env body ds = some (reqs, warns)) :
    ∀ r ∈ reqs, r.body = body ∧ hdrLookup "Digest" r.headers = some (env.digest body) := by
  induction ds generalizing reqs warns with
  | nil =>
    simp only [dispatchLoop, Option.some.injEq, Prod.mk.injEq] at h
    obtain ⟨h1, _⟩ := h
    subst h1
    intro r hr
    cases hr
  | cons d ds ih =>
    simp only [dispatchLoop] at h
    cases hp : processDest env body d with
    | skipped w =>
      rw [hp] at h
      cases hrec : dispatchLoop env body ds with
      | none => rw [hrec] at h; cases h
      | some p =>
        rw [hrec] at h
        simp only [Option.map_some', Option.some.injEq, Prod.mk.injEq] at h
        obtain ⟨h1, _⟩ := h
        subst h1
        intro r hr
        exact ih p.1 p.2 (by rw [hrec]) r hr
    | fatal => rw [hp] at h; cases h
    | dispatched r0 =>
      rw [hp] at h
      cases hrec : dispatchLoop env body ds with
      | none => rw [hrec] at h; cases h
      | some p =>
        rw [hrec] at h
        simp only [Option.map_some', Option.some.injEq, Prod.mk.injEq] at h
        obtain ⟨h1, _⟩ := h
        subst h1
        intro r hr
        rcases List.mem_cons.mp hr with rfl | hr
        · obtain ⟨hb, hd, _⟩ := processDest_dispatched env body d r hp
          exact ⟨hb, hd⟩
        · exact ih p.1 p.2 (by rw [hrec]) r hr

/-- The urls the loop dispatches to form a sublist of the destination list,
so a deduplicated destination list yields pairwise-distinct request urls. -/
theorem dispatchLoop_urls_sublist (env : BroadcastEnv) (body : String) (ds : List String)
    (reqs : List DispatchRequest) (warns : List String)
    (h : dispatchLoop env body ds = some (reqs, warns)) :
    (reqs.map DispatchRequest.url).Sublist ds := by
  induction ds generalizing reqs warns with
  | nil =>
    simp only [dispatchLoop, Option.some.injEq, Prod.mk.injEq] at h
    obtain ⟨h1, _⟩ := h
    subst h1
    simp
  | cons d ds ih =>
    simp only [dispatchLoop] at h
    cases hp : processDest env body d with
    | skipped w =>
      rw [hp] at h
      cases hrec : dispatchLoop env body ds with
      | none => rw [hrec] at h; cases h
      | some p =>
        rw [hrec] at h
        simp only [Option.map_some', Option.some.injEq, Prod.mk.injEq] at h
        obtain ⟨h1, _⟩ := h
        subst h1
        exact (ih p.1 p.2 (by rw [hrec])).cons d
    | fatal => rw [hp] at h; cases h
    | dispatched r0 =>
      rw [hp] at h
      cases hrec : dispatchLoop env body ds with
      | none => rw [hrec] at h; cases h
      | some p =>
        rw [hrec] at h
        simp only [Option.map_some', Option.some.injEq, Prod.mk.injEq] at h
        obtain ⟨h1, _⟩ := h
        subst h1
        rw [List.map_cons]
        obtain ⟨_, _, hu⟩ := processDest_dispatched env body d r0 hp
        rw [hu]
        exact (ih p.1 p.2 (by rw [hrec])).cons₂ d

end DispatchLemmas

section ClassifyLemmas

theorem classifyRange_forward_true (ct : String) :
    classifyRange ct = .forward true ↔ rustTrim ct = "text/html" := by
  unfold classifyRange
  split_ifs with h1 h2
  · refine iff_of_false (by simp) fun ht => ?_
    rw [ht] at h1
    exact absurd h1 (by decide)
  · exact iff_of_true rfl h2
  · exact iff_of_false (by simp) h2

end ClassifyLemmas

/-! ## Concrete fixtures used by the claim witnesses -/

/-- A recipient with `is_local() == true`. -/
def localRecipient : Recipient := ⟨true, "https://local.example/inbox", none⟩

/-- A remote recipient with no shared inbox. -/
def remoteRecipient : Recipient := ⟨false, "https://remote.example/inbox", none⟩

/-- Two remote recipients sharing one shared inbox URL. -/
def sharedRecipientA : Recipient :=
  ⟨false, "https://a.example/inbox", some "https://shared.example/inbox"⟩

def sharedRecipientB : Recipient :=
  ⟨false, "https://b.example/inbox", some "https://shared.example/inbox"⟩

/-- A concrete broadcast environment: parses the example inbox URLs, accepts
every host header value, signs everything. -/
def exampleEnv : BroadcastEnv where
  parseUrl s :=
    if s = "https://local.example/inbox" then some ⟨some "local.example", "/inbox", none⟩
    else if s = "https://remote.example/inbox" then some ⟨some "remote.example", "/inbox", none⟩
    else none
  headerValueOk _ := true
  defaultHeaders := []
  digest body := String.append "SHA-256=" body
  signDoc j := some j
  reqSignature _ _ := some "sig"

/-- An environment whose signer rejects the shared document. -/
def failSignEnv : BroadcastEnv where
  parseUrl _ := none
  headerValueOk _ := true
  defaultHeaders := []
  digest body := body
  signDoc _ := none
  reqSignature _ _ := some "sig"

/-- The signed document of the witness runs: an empty object with the
canonical context injected. -/
def exampleSigned : Json := .obj (mapInsert "@context" context [])

/-- The single request `broadcastRun exampleEnv` dispatches to the remote
example inbox. -/
def exampleReq : DispatchRequest :=
  ⟨"https://remote.example/inbox",
   destHeaders exampleEnv (Json.render exampleSigned) "remote.example",
   "sig", Json.render exampleSigned⟩

/-- A property bag on which all five decompositions succeed; the optional
`href` and `name` of `Hashtag07` are absent. -/
def exampleBag : Bag :=
  [("publicKey", .obj [("id", .str "https://example.com/pubkey"),
      ("owner", .str "https://example.com/owner"),
      ("publicKeyPem", .str "pem")]),
   ("source", .obj [("mediaType", .str "text/markdown"), ("content", .str "src")]),
   ("content", .str "body"),
   ("mediaType", .str "text/markdown"),
   ("license", .str "CC-0"),
   ("type", .str "Hashtag")]

def exampleSig : ApSignature07 :=
  ⟨⟨"https://example.com/pubkey", "https://example.com/owner", "pem"⟩⟩

def exampleActorSource : ActorSource := ⟨⟨"text/markdown", "src"⟩⟩

def exampleSource : Source := ⟨"text/markdown", "body"⟩

def exampleLicensed : Licensed07 := ⟨"CC-0"⟩

def exampleHashtag : Hashtag07 :=
  ⟨none, none, bagErase "name" (bagErase "href" exampleBag)⟩

/-- An entity that already carries an `@context`-like key. -/
def exampleEntity : Bag :=
  [("@context", .str "stale"), ("id", .str "https://example.com/1")]

/-! ## Claim theorems -/

/-- C1: the claim says every recipient with `is_local() == true` is excluded
from the destinations of both `broadcast` and `broadcast07`.  `broadcast`
does filter local recipients out, but `broadcast07` has no `is_local` filter:
a local recipient's inbox URL appears among `broadcast07`'s destinations and
a request is dispatched to it. -/
theorem broadcast07_dispatches_to_local :
    localRecipient.isLocal = true
  ∧ broadcast07Boxes [localRecipient] = [localRecipient.inboxUrl]
  ∧ (broadcast07Model exampleEnv (some (.obj [])) [localRecipient]).map
      (fun p => p.1.map DispatchRequest.url) = some [localRecipient.inboxUrl]
  ∧ broadcastBoxes [localRecipient] = [] :=
  ⟨rfl, rfl, rfl, rfl⟩

/-- C2 (counterexample): `Accept: text/html,application/activity+json`
contains a protocol media range, yet `from_request` resolves it to a forward
(PassThrough), not Protocol: an earlier `text/html` range is sticky in the
fold and shadows the later protocol range. -/
theorem html_range_shadows_protocol :
    classifyRange "application/activity+json" = .success
  ∧ "application/activity+json" ∈ splitComma "text/html,application/activity+json"
  ∧ fromRequest (some "text/html,application/activity+json") = .forwardUnit
  ∧ ApResult.forwardUnit ≠ ApResult.success := by
  refine ⟨by decide, by decide, by decide, by decide⟩

/-- C2 (amended): a media range matching one of the four protocol strings
yields Protocol regardless of its position, provided every earlier range
classifies as `Forward(false)` — i.e. no earlier `text/html` range; an
earlier unrecognized range does not prevent the Protocol match. -/
theorem protocol_match_wins_without_earlier_html (h : String) (l1 l2 : List String)
    (p : String) (hsplit : splitComma h = l1 ++ p :: l2)
    (hp : classifyRange p = .success)
    (hpre : ∀ q ∈ l1, classifyRange q = .forward false) :
    fromRequest (some h) = .success := by
  have hfold : acceptFold h = .success := by
    rw [acceptFold, acceptFold_eq_firstSticky, hsplit, List.map_append, List.map_cons, hp]
    refine firstSticky_append_success _ _ fun x hx => ?_
    rcases List.mem_map.mp hx with ⟨q, hq, hqx⟩
    rw [← hqx, hpre q hq]
  simp only [fromRequest, hfold]

/-- C2 (amended, witness): an earlier `application/xml` range does not
prevent `application/activity+json` from yielding Protocol. -/
theorem protocol_match_wins_witness :
    splitComma "application/xml,application/activity+json" =
      ["application/xml"] ++ "application/activity+json" :: []
  ∧ classifyRange "application/activity+json" = .success
  ∧ fromRequest (some "application/xml,application/activity+json") = .success :=
  ⟨by decide, by decide,
    protocol_match_wins_without_earlier_html "application/xml,application/activity+json"
      ["application/xml"] [] "application/activity+json" (by decide) (by decide)
      (by decide)⟩

/-- C3: for each of the five constructed extension types, composing the
decomposed extension back over the remaining bag reproduces the original
bag's property set exactly — every key maps to its original value and key
uniqueness is preserved — including when the optional `href`/`name` of
`Hashtag07` are absent.  (A present optional key carries a non-null value:
serde skips absent options instead of writing `null`.) -/
theorem extensions_compose_decompose_id (b : Bag) :
    (∀ s rest, ApSignature07.tryFromUnparsed b = some (s, rest) →
      bagEquiv (s.tryIntoUnparsed rest) b ∧
        ((bagKeys b).Nodup → (bagKeys (s.tryIntoUnparsed rest)).Nodup))
  ∧ (∀ a rest, ActorSource.tryFromUnparsed b = some (a, rest) →
      bagEquiv (a.tryIntoUnparsed rest) b ∧
        ((bagKeys b).Nodup → (bagKeys (a.tryIntoUnparsed rest)).Nodup))
  ∧ (∀ s rest, Source.tryFromUnparsed b = some (s, rest) →
      bagEquiv (s.tryIntoUnparsed rest) b ∧
        ((bagKeys b).Nodup → (bagKeys (s.tryIntoUnparsed rest)).Nodup))
  ∧ (∀ l rest, Licensed07.tryFromUnparsed b = some (l, rest) →
      bagEquiv (l.tryIntoUnparsed rest) b ∧
        ((bagKeys b).Nodup → (bagKeys (l.tryIntoUnparsed rest)).Nodup))
  ∧ (∀ h, bagLookup "href" b ≠ some .null → bagLookup "name" b ≠ some .null →
      Hashtag07.extending b = some h →
      bagEquiv h.retracting b ∧
        ((bagKeys b).Nodup → (bagKeys h.retracting).Nodup)) :=
  ⟨fun s rest h => apSignature07_roundtrip b s rest h,
   fun a rest h => actorSource_roundtrip b a rest h,
   fun s rest h => source_roundtrip b s rest h,
   fun l rest h => licensed07_roundtrip b l rest h,
   fun h hh hn he => hashtag07_roundtrip b h hh hn he⟩

/-- C3 (witness): on a concrete bag all five decompositions succeed (with
`href`/`name` absent) and recomposition restores sample keys. -/
theorem extensions_compose_decompose_id_witness :
    ApSignature07.tryFromUnparsed exampleBag = some (exampleSig, bagErase "publicKey" exampleBag)
  ∧ bagLookup "license" (exampleSig.tryIntoUnparsed (bagErase "publicKey" exampleBag)) =
      bagLookup "license" exampleBag
  ∧ ActorSource.tryFromUnparsed exampleBag =
      some (exampleActorSource, bagErase "source" exampleBag)
  ∧ bagLookup "publicKey" (exampleActorSource.tryIntoUnparsed (bagErase "source" exampleBag)) =
      bagLookup "publicKey" exampleBag
  ∧ Source.tryFromUnparsed exampleBag =
      some (exampleSource, bagErase "mediaType" (bagErase "content" exampleBag))
  ∧ bagLookup "content"
        (exampleSource.tryIntoUnparsed (bagErase "mediaType" (bagErase "content" exampleBag))) =
      bagLookup "content" exampleBag
  ∧ Licensed07.tryFromUnparsed exampleBag = some (exampleLicensed, bagErase "license" exampleBag)
  ∧ bagLookup "license" (exampleLicensed.tryIntoUnparsed (bagErase "license" exampleBag)) =
      bagLookup "license" exampleBag
  ∧ Hashtag07.extending exampleBag = some exampleHashtag
  ∧ bagLookup "type" exampleHashtag.retracting = bagLookup "type" exampleBag :=
  ⟨rfl,
   ((extensions_compose_decompose_id exampleBag).1 exampleSig _ rfl).1 "license",
   rfl,
   ((extensions_compose_decompose_id exampleBag).2.1 exampleActorSource _ rfl).1 "publicKey",
   rfl,
   ((extensions_compose_decompose_id exampleBag).2.2.1 exampleSource _ rfl).1 "content",
   rfl,
   ((extensions_compose_decompose_id exampleBag).2.2.2.1 exampleLicensed _ rfl).1 "license",
   rfl,
   ((extensions_compose_decompose_id exampleBag).2.2.2.2 exampleHashtag
      (fun hc => Option.noConfusion
        ((show bagLookup "href" exampleBag = none from rfl).symm.trans hc))
      (fun hc => Option.noConfusion
        ((show bagLookup "name" exampleBag = none from rfl).symm.trans hc))
      rfl).1 "type"⟩

/-- C4: rendering any object through the context envelope sets `@context` to
the canonical structure — overwriting any pre-existing key, never merging —
preserves every other key, and the canonical structure is exactly the two
vocabulary URLs plus the twelve-alias map. -/
theorem context_always_canonical (fields out : Bag)
    (h : jsonSetContext (.obj fields) = some (.obj out)) :
    bagLookup "@context" out = some context
  ∧ (∀ k, k ≠ "@context" → bagLookup k out = bagLookup k fields)
  ∧ context = .arr [.str "https://www.w3.org/ns/activitystreams",
      .str "https://w3id.org/security/v1", .obj contextAliases]
  ∧ bagLookup "manuallyApprovesFollowers" contextAliases =
      some (.str "as:manuallyApprovesFollowers")
  ∧ bagLookup "sensitive" contextAliases = some (.str "as:sensitive")
  ∧ bagLookup "movedTo" contextAliases = some (.str "as:movedTo")
  ∧ bagLookup "Hashtag" contextAliases = some (.str "as:Hashtag")
  ∧ bagLookup "ostatus" contextAliases = some (.str "http://ostatus.org#")
  ∧ bagLookup "atomUri" contextAliases = some (.str "ostatus:atomUri")
  ∧ bagLookup "inReplyToAtomUri" contextAliases = some (.str "ostatus:inReplyToAtomUri")
  ∧ bagLookup "conversation" contextAliases = some (.str "ostatus:conversation")
  ∧ bagLookup "toot" contextAliases = some (.str "http://joinmastodon.org/ns#")
  ∧ bagLookup "Emoji" contextAliases = some (.str "toot:Emoji")
  ∧ bagLookup "focalPoint" contextAliases =
      some (.obj [("@container", .str "@list"), ("@id", .str "toot:focalPoint")])
  ∧ bagLookup "featured" contextAliases = some (.str "toot:featured") := by
  have hout : mapInsert "@context" context fields = out := by
    simp only [jsonSetContext, Option.some.injEq, Json.obj.injEq] at h
    exact h
  subst hout
  exact ⟨bagLookup_mapInsert_self _ _ _,
    fun k hk => bagLookup_mapInsert_ne _ k _ _ hk,
    rfl, rfl, rfl, rfl, rfl, rfl, rfl, rfl, rfl, rfl, rfl, rfl, rfl⟩

/-- C4 (witness): a concrete entity with a stale `@context` key has it
overwritten with the canonical structure while its `id` key survives. -/
theorem context_always_canonical_witness :
    jsonSetContext (.obj exampleEntity) = some (.obj (mapInsert "@context" context exampleEntity))
  ∧ bagLookup "@context" (mapInsert "@context" context exampleEntity) = some context
  ∧ bagLookup "id" (mapInsert "@context" context exampleEntity) = bagLookup "id" exampleEntity :=
  ⟨rfl,
   (context_always_canonical exampleEntity _ rfl).1,
   (context_always_canonical exampleEntity _ rfl).2.1 "id" (by decide)⟩

/-- C5: the destination list of either broadcast maps each (non-local, for
`broadcast`) recipient to its shared inbox URL when present, else its inbox
URL, and contains each URL value exactly once, so recipients sharing one
shared inbox produce a single destination. -/
theorem destination_set_deduplicated (recips : List Recipient) :
    (broadcastBoxes recips).Nodup
  ∧ (broadcast07Boxes recips).Nodup
  ∧ (∀ url, url ∈ broadcastBoxes recips ↔
      ∃ u, u ∈ recips ∧ u.isLocal = false ∧ u.target = url)
  ∧ (∀ url, url ∈ broadcast07Boxes recips ↔ ∃ u, u ∈ recips ∧ u.target = url)
  ∧ (∀ url, url ∈ broadcastBoxes recips → List.count url (broadcastBoxes recips) = 1)
  ∧ (∀ url, url ∈ broadcast07Boxes recips → List.count url (broadcast07Boxes recips) = 1) := by
  refine ⟨nodup_unique _, nodup_unique _, fun url => ?_, fun url => ?_,
    fun url h => List.count_eq_one_of_mem (nodup_unique _) h,
    fun url h => List.count_eq_one_of_mem (nodup_unique _) h⟩
  · rw [broadcastBoxes, mem_unique, List.mem_map]
    constructor
    · rintro ⟨u, hu, rfl⟩
      rw [List.mem_filter] at hu
      exact ⟨u, hu.1, by simpa using hu.2, rfl⟩
    · rintro ⟨u, hu, hl, rfl⟩
      exact ⟨u, List.mem_filter.mpr ⟨hu, by simp [hl]⟩, rfl⟩
  · rw [broadcast07Boxes, mem_unique, List.mem_map]

/-- C5 (witness): two recipients sharing one shared inbox URL yield exactly
one destination entry for that URL. -/
theorem destination_set_deduplicated_witness :
    broadcastBoxes [sharedRecipientA, sharedRecipientB] = ["https://shared.example/inbox"]
  ∧ sharedRecipientA.target = sharedRecipientB.target
  ∧ List.count "https://shared.example/inbox"
      (broadcastBoxes [sharedRecipientA, sharedRecipientB]) = 1 :=
  ⟨rfl, rfl,
   (destination_set_deduplicated [sharedRecipientA, sharedRecipientB]).2.2.2.2.1
     "https://shared.example/inbox" (by decide)⟩

/-- C6: when no destination triggers the per-destination signing panic, the
loop dispatches exactly the request of every well-formed destination and
records one warning per skipped one — a malformed destination (parse
failure) is skipped with its warning and never prevents a sibling from being
dispatched. -/
theorem invalid_destination_skipped (env : BroadcastEnv) (body : String) (ds : List String)
    (hnf : ∀ d ∈ ds, processDest env body d ≠ .fatal) :
    dispatchLoop env body ds =
      some (ds.filterMap (fun d => destOutcomeReq (processDest env body d)),
            ds.filterMap (fun d => destOutcomeWarning (processDest env body d)))
  ∧ (∀ d, env.parseUrl d = none →
      processDest env body d = .skipped ("Inbox is invalid URL: " ++ d))
  ∧ (∀ d r, processDest env body d = .dispatched r →
      destOutcomeReq (processDest env body d) = some r) := by
  refine ⟨dispatchLoop_filterMap env body ds hnf, fun d hd => ?_, fun d r hr => ?_⟩
  · unfold processDest
    simp only [hd]
  · rw [hr]
    rfl

/-- C6 (witness): a malformed URL in a two-destination call is skipped with
its warning while the valid sibling is still dispatched. -/
theorem invalid_destination_skipped_witness :
    dispatchLoop exampleEnv "B" ["not a url", "https://remote.example/inbox"] =
      some (["not a url", "https://remote.example/inbox"].filterMap
              (fun d => destOutcomeReq (processDest exampleEnv "B" d)),
            ["not a url", "https://remote.example/inbox"].filterMap
              (fun d => destOutcomeWarning (processDest exampleEnv "B" d)))
  ∧ ["not a url", "https://remote.example/inbox"].filterMap
        (fun d => destOutcomeReq (processDest exampleEnv "B" d)) =
      [⟨"https://remote.example/inbox", destHeaders exampleEnv "B" "remote.example", "sig", "B"⟩]
  ∧ ["not a url", "https://remote.example/inbox"].filterMap
        (fun d => destOutcomeWarning (processDest exampleEnv "B" d)) =
      ["Inbox is invalid URL: not a url"] :=
  ⟨(invalid_destination_skipped exampleEnv "B" _ (by decide)).1, rfl, rfl⟩

/-- C7: a serialization failure of the activity, or a failure of the signer
on the shared canonical document, aborts the whole broadcast call before any
per-destination work, so no request is produced; and a rendering failure in
the responder yields a generic server error with no body. -/
theorem fatal_failures_abort_call (env : BroadcastEnv) (actSer : Option Json)
    (recips : List Recipient) :
    (actSer = none →
      broadcastModel env actSer recips = none ∧ broadcast07Model env actSer recips = none)
  ∧ (∀ j j', actSer = some j → jsonSetContext j = some j' → env.signDoc j' = none →
      broadcastModel env actSer recips = none ∧ broadcast07Model env actSer recips = none)
  ∧ activityStreamRespondTo none = .internalServerError := by
  refine ⟨fun h => ?_, fun j j' h1 h2 h3 => ?_, rfl⟩
  · subst h
    exact ⟨rfl, rfl⟩
  · subst h1
    constructor
    · simp [broadcastModel, broadcastRun, h2, h3]
    · simp [broadcast07Model, broadcastRun, h2, h3]

/-- C7 (witness): with a failing signer no request list is produced; with a
failed serialization likewise. -/
theorem fatal_failures_abort_call_witness :
    broadcastModel failSignEnv (some (.obj [])) [remoteRecipient] = none
  ∧ broadcast07Model failSignEnv (some (.obj [])) [remoteRecipient] = none
  ∧ broadcastModel failSignEnv none [remoteRecipient] = none :=
  ⟨((fatal_failures_abort_call failSignEnv (some (.obj [])) [remoteRecipient]).2.1
      (.obj []) (.obj (mapInsert "@context" context [])) rfl rfl rfl).1,
   ((fatal_failures_abort_call failSignEnv (some (.obj [])) [remoteRecipient]).2.1
      (.obj []) (.obj (mapInsert "@context" context [])) rfl rfl rfl).2,
   ((fatal_failures_abort_call failSignEnv none [remoteRecipient]).1 rfl).1⟩

/-- C8: an Accept header with no protocol-matching range resolves to a
forward — never an error — whose boolean hint is true exactly when some
range is `text/html`; an absent header forwards; and every request resolves
to Protocol or a forward. -/
theorem negotiation_passthrough_deterministic (h : String)
    (hns : ∀ ct ∈ splitComma h, classifyRange ct ≠ .success) :
    acceptFold h = .forward (decide (∃ ct ∈ splitComma h, rustTrim ct = "text/html"))
  ∧ fromRequest (some h) = .forwardUnit
  ∧ fromRequest none = .forwardUnit
  ∧ acceptFold "text/html" = .forward true
  ∧ acceptFold "application/xml" = .forward false
  ∧ (∀ oh, fromRequest oh = .success ∨ fromRequest oh = .forwardUnit) := by
  have hnosucc : ∀ x ∈ (splitComma h).map classifyRange, x ≠ .success := by
    intro x hx
    rcases List.mem_map.mp hx with ⟨ct, hct, rfl⟩
    exact hns ct hct
  have hmain : acceptFold h =
      .forward (decide (∃ ct ∈ splitComma h, rustTrim ct = "text/html")) := by
    rw [acceptFold, acceptFold_eq_firstSticky, firstSticky_no_success _ hnosucc]
    congr 1
    rw [decide_eq_decide]
    constructor
    · intro hmem
      rcases List.mem_map.mp hmem with ⟨ct, hct, hc⟩
      exact ⟨ct, hct, (classifyRange_forward_true ct).mp hc⟩
    · rintro ⟨ct, hct, ht⟩
      exact List.mem_map.mpr ⟨ct, hct, (classifyRange_forward_true ct).mpr ht⟩
  refine ⟨hmain, by simp only [fromRequest, hmain], rfl, by decide, by decide, fun oh => ?_⟩
  cases oh with
  | none => exact Or.inr rfl
  | some s =>
    cases hf : acceptFold s with
    | success => exact Or.inl (by simp [fromRequest, hf])
    | forward b => exact Or.inr (by simp [fromRequest, hf])

/-- C8 (witness): `text/html,application/xml` has no protocol range and
resolves to a forward whose hint records the `text/html` range. -/
theorem negotiation_passthrough_witness :
    acceptFold "text/html,application/xml" =
      .forward (decide (∃ ct ∈ splitComma "text/html,application/xml",
        rustTrim ct = "text/html"))
  ∧ fromRequest (some "text/html,application/xml") = .forwardUnit :=
  ⟨(negotiation_passthrough_deterministic "text/html,application/xml" (by decide)).1,
   (negotiation_passthrough_deterministic "text/html,application/xml" (by decide)).2.1⟩

/-- C9: the activity is serialized and signed once per call; every request
the call dispatches carries the identical body — the rendering of the signed
document — and the identical Digest value computed from it. -/
theorem body_serialized_once_shared (env : BroadcastEnv) (actSer : Option Json)
    (boxes : List String) (reqs : List DispatchRequest) (warns : List String)
    (j j' signed : Json)
    (h1 : actSer = some j) (h2 : jsonSetContext j = some j')
    (h3 : env.signDoc j' = some signed)
    (h : broadcastRun env actSer boxes = some (reqs, warns)) :
    (∀ r ∈ reqs, r.body = Json.render signed ∧
      hdrLookup "Digest" r.headers = some (env.digest (Json.render signed)))
  ∧ (∀ r1 ∈ reqs, ∀ r2 ∈ reqs, r1.body = r2.body) := by
  subst h1
  have hloop : dispatchLoop env (Json.render signed) boxes = some (reqs, warns) := by
    simpa [broadcastRun, h2, h3] using h
  have hb := dispatchLoop_body env (Json.render signed) boxes reqs warns hloop
  exact ⟨hb, fun r1 hr1 r2 hr2 => by rw [(hb r1 hr1).1, (hb r2 hr2).1]⟩

/-- C9 (witness): the concrete run dispatches one request whose body is the
rendered signed document and whose Digest is computed from that body. -/
theorem body_serialized_once_shared_witness :
    broadcastRun exampleEnv (some (.obj [])) ["https://remote.example/inbox"] =
      some ([exampleReq], [])
  ∧ exampleReq.body = Json.render exampleSigned
  ∧ hdrLookup "Digest" exampleReq.headers =
      some (exampleEnv.digest (Json.render exampleSigned)) :=
  ⟨rfl,
   ((body_serialized_once_shared exampleEnv (some (.obj []))
      ["https://remote.example/inbox"] [exampleReq] [] (.obj []) exampleSigned exampleSigned
      rfl rfl rfl rfl).1 exampleReq (List.mem_cons_self _ _)).1,
   ((body_serialized_once_shared exampleEnv (some (.obj []))
      ["https://remote.example/inbox"] [exampleReq] [] (.obj []) exampleSigned exampleSigned
      rfl rfl rfl rfl).1 exampleReq (List.mem_cons_self _ _)).2⟩

/-- C10: `Id::new` followed by `as_ref` is the identity on the string, and an
`Id` serializes to the bare string and deserializes back to an equal `Id`. -/
theorem id_roundtrip_transparent (s : String) :
    (Id.new s).asRef = s
  ∧ Id.serialize (Id.new s) = .str s
  ∧ Id.deserialize (Id.serialize (Id.new s)) = some (Id.new s)
  ∧ (∀ i : Id, Id.deserialize (Id.serialize i) = some i) :=
  ⟨rfl, rfl, rfl, fun _ => rfl⟩

end Plume
